import Mathlib

/-!
Verification of the KAIRO narrative-construction pipeline.

This file gives a shallow embedding of the pipeline modules relevant to the
claims under scrutiny:

* `src/pipeline/persona.js` — template matching (`scoreTemplateMatch`,
  `matchTemplate`) and enhancement customization (`customizeEnhancements`);
* `src/pipeline/enhancer.js` — the transitions module (`enhanceTransitions`);
* `src/pipeline/story-engine.js` — climax-center detection, phase
  partitioning, beat synthesis, emotion curve and arc structure
  (`buildStoryArc` and its helpers).

Modelling conventions:

* JS numbers are embedded as `ℚ` (timestamps, durations, slider levels,
  template fractions) or `ℤ` (scores, intensities, counters).  All arithmetic
  appearing in the embedded code stays exact at these value ranges, so the
  rational semantics coincides with the JS double semantics on every
  computation path that the theorems below touch.
* `Math.round` is "round half toward positive infinity", `jsRound` below;
  `Math.floor` is `Int.floor`; `Math.max`/`Math.min` are `max`/`min`.
* JS `x || d` applied to a number is `if x = 0 then d else x` (`jsOr` below);
  applied to an optional table lookup it is `Option.getD` (every stored table
  value in the embedded tables is nonzero, so truthiness equals presence).
* JS stable `Array.sort` with a numeric-difference comparator is embedded as
  `List.insertionSort` with the corresponding `≤` relation, which is stable.
* JS reference equality (`===`) between list elements is embedded as value
  equality; the embedded theorems and concrete inputs only rely on it for
  lists of pairwise-distinct moments, where the two coincide.
* Fields that are produced by `Math.random` (titles, loglines, overlay text
  pools) and run-dependent ids are outside every claim and are omitted from
  the records; all other fields are carried faithfully.
* `end` is a Lean keyword, so segment/beat end times are called `stop`.
-/

namespace Kairo

/-- JS `Math.round`: round half toward positive infinity. -/
def jsRound (q : ℚ) : ℤ := ⌊q + 1/2⌋

/-- Clamp an integer into `[0, 100]` (`Math.max(0, Math.min(100, z))`). -/
def clamp100 (z : ℤ) : ℤ := max 0 (min 100 z)

/-- JS `x || d` on numbers: `x` is falsy exactly when it is `0`. -/
def jsOr (x fb : ℤ) : ℤ := if x = 0 then fb else x

/-- `Math.round(q * 100) / 100`: round to two decimals. -/
def round2 (q : ℚ) : ℚ := (jsRound (q * 100) : ℚ) / 100

-- ═══════════════════════════════════════════════════════════════════════════
-- persona.js — data model
-- ═══════════════════════════════════════════════════════════════════════════

/-- The fields of `StreamerPersona` consumed by `scoreTemplateMatch`,
`matchTemplate` and `customizeEnhancements`.  (Display-only fields such as
`name`, `bio`, `avatar`, `catchphrases` are not consumed by the embedded
functions and are omitted.) -/
structure Persona where
  energy_level : ℤ
  edit_intensity : ℤ
  humor_style : String
  preferred_template : String
deriving DecidableEq

/-- `HighlightSummary` as consumed by `scoreTemplateMatch`. -/
structure Summary where
  avgScore : ℚ
  maxScore : ℚ
  count : ℤ
  momentumSwings : ℤ
  clutchCount : ℤ
  rageIndicators : ℤ
deriving DecidableEq

/-- The catalog order of `TEMPLATES` in `templates.js` (insertion order of the
`Map`). -/
def templateIds : List String :=
  ["comeback-king", "clutch-master", "rage-quit-montage", "chill-highlights",
   "kill-montage", "session-story", "tiktok-vertical", "edu-breakdown",
   "hype-montage", "squad-moments"]

/-- The `energyMap` object literal in `scoreTemplateMatch`; `none` models an
absent key. -/
def energyMap (id : String) : Option ℤ :=
  if id = "comeback-king" then some 7
  else if id = "clutch-master" then some 8
  else if id = "rage-quit-montage" then some 9
  else if id = "chill-highlights" then some 3
  else if id = "kill-montage" then some 8
  else if id = "session-story" then some 5
  else if id = "tiktok-vertical" then some 8
  else if id = "edu-breakdown" then some 4
  else if id = "hype-montage" then some 9
  else if id = "squad-moments" then some 6
  else none

/-- The `humorBonus` nested object literal in `scoreTemplateMatch`;
`none` models an absent entry (`?.[] || 0` in the source). -/
def humorBonusTable (style id : String) : Option ℤ :=
  if style = "chaotic" then
    if id = "rage-quit-montage" then some 10
    else if id = "clutch-master" then some 5
    else if id = "tiktok-vertical" then some 7
    else none
  else if style = "loud" then
    if id = "clutch-master" then some 10
    else if id = "comeback-king" then some 8
    else if id = "hype-montage" then some 8
    else none
  else if style = "sarcastic" then
    if id = "rage-quit-montage" then some 8
    else if id = "chill-highlights" then some 5
    else if id = "edu-breakdown" then some 7
    else none
  else if style = "dry" then
    if id = "chill-highlights" then some 10
    else if id = "comeback-king" then some 5
    else if id = "session-story" then some 7
    else none
  else if style = "wholesome" then
    if id = "chill-highlights" then some 10
    else if id = "comeback-king" then some 8
    else if id = "squad-moments" then some 10
    else none
  else none

/-- `scoreTemplateMatch(persona, highlights, template)` from `persona.js`,
as the accumulation the source performs (`score = 50`, then the sequence of
`score += …` / `score -= …` statements, then the final clamp).  Only the
template id is consumed from the template record. -/
def scoreTemplateMatch (p : Persona) (h : Summary) (id : String) : ℤ :=
  let s1 : ℤ := if p.preferred_template = id then 50 + 20 else 50
  let templateEnergy := (energyMap id).getD 5
  let s2 := s1 - |p.energy_level - templateEnergy| * 3
  let s3 := s2
    + (if id = "comeback-king" ∧ 3 < h.momentumSwings then 15 else 0)
    + (if id = "clutch-master" ∧ 2 < h.clutchCount then 15 else 0)
    + (if id = "rage-quit-montage" ∧ 2 < h.rageIndicators then 15 else 0)
    + (if id = "chill-highlights" ∧ h.avgScore < 50 then 10 else 0)
    + (if id = "kill-montage" ∧ 95 ≤ h.maxScore then 15 else 0)
    + (if id = "session-story" ∧ 10 < h.count then 12 else 0)
    + (if id = "tiktok-vertical" ∧ 85 ≤ h.maxScore then 10 else 0)
    + (if id = "hype-montage" ∧ 70 < h.avgScore then 12 else 0)
  let s4 := s3 + (humorBonusTable p.humor_style id).getD 0
  max 0 (min 100 s4)

/-- The selection loop of `matchTemplate`: fold over the catalog keeping the
strictly-best score seen so far (`bestId = null`, `bestScore = -1` initial
state). -/
def matchLoop (f : String → ℤ) : List String → Option String × ℤ → Option String × ℤ
  | [], acc => acc
  | id :: rest, acc =>
      matchLoop f rest (if acc.2 < f id then (some id, f id) else acc)

/-- The `allScores` object built by `matchTemplate`, as an association list in
catalog order. -/
def allScoresList (f : String → ℤ) : List (String × ℤ) :=
  templateIds.map (fun id => (id, f id))

/-- `matchTemplate(persona, highlights)` from `persona.js`, returning the pair
`(bestId, bestScore)`.  The final `if` is the preferred-template tie-break:
`persona.preferred_template && allScores[persona.preferred_template] === bestScore`. -/
def matchTemplate (p : Persona) (h : Summary) : Option String × ℤ :=
  let f := scoreTemplateMatch p h
  let best := matchLoop f templateIds (none, -1)
  if p.preferred_template ≠ "" ∧ (allScoresList f).lookup p.preferred_template = some best.2
  then (some p.preferred_template, best.2)
  else best

/-- Template `enhancement_defaults` record (five slider defaults). -/
structure EnhDefaults where
  bgm : ℚ
  subtitles : ℚ
  effects : ℚ
  hook : ℚ
  transitions : ℚ
deriving DecidableEq

/-- The five adjusted levels returned by `customizeEnhancements`. -/
structure EnhLevels where
  bgm : ℤ
  subtitles : ℤ
  effects : ℤ
  hook : ℤ
  transitions : ℤ
deriving DecidableEq

/-- `customizeEnhancements(persona, defaults)` from `persona.js`. -/
def customizeEnhancements (p : Persona) (d : EnhDefaults) : EnhLevels :=
  let energyFactor : ℚ := (p.energy_level : ℚ) / 10
  let intensityFactor : ℚ := (p.edit_intensity : ℚ) / 10
  let clamp : ℚ → ℤ := fun v => max 0 (min 100 (jsRound v))
  let bgm := clamp (d.bgm + (1 - energyFactor) * 15 - energyFactor * 10)
  let subtitleBonus : ℚ :=
    if p.humor_style = "chaotic" ∨ p.humor_style = "loud" ∨ p.humor_style = "sarcastic"
    then 20 else 0
  let subtitles := clamp (d.subtitles + subtitleBonus * intensityFactor)
  let effects := clamp (d.effects * (0.5 + intensityFactor * 0.5) + energyFactor * 10)
  let hook := clamp (d.hook * (0.6 + energyFactor * 0.4) + intensityFactor * 5)
  let transitions := clamp (d.transitions * (0.5 + intensityFactor * 0.5) + energyFactor * 5)
  ⟨bgm, subtitles, effects, hook, transitions⟩

-- ═══════════════════════════════════════════════════════════════════════════
-- persona.js — claim-side (spec-worded) definitions
-- ═══════════════════════════════════════════════════════════════════════════

/-- Claim C3's wording of the template-family bonus: a chain with exactly one
threshold rule per template family (0 for a template outside the listed
families). -/
def familyBonusSpec (h : Summary) (id : String) : ℤ :=
  if id = "comeback-king" then (if 3 < h.momentumSwings then 15 else 0)
  else if id = "clutch-master" then (if 2 < h.clutchCount then 15 else 0)
  else if id = "rage-quit-montage" then (if 2 < h.rageIndicators then 15 else 0)
  else if id = "chill-highlights" then (if h.avgScore < 50 then 10 else 0)
  else if id = "kill-montage" then (if 95 ≤ h.maxScore then 15 else 0)
  else if id = "session-story" then (if 10 < h.count then 12 else 0)
  else if id = "tiktok-vertical" then (if 85 ≤ h.maxScore then 10 else 0)
  else if id = "hype-montage" then (if 70 < h.avgScore then 12 else 0)
  else 0

/-- Claim C3's wording of the per-template score: 50, plus 20 for the
preferred template, minus `3 × |energy − template_energy|` (fixed lookup
defaulting to 5), plus the family bonus, plus the humor-style bonus
(0 if no entry), clamped to `[0, 100]`. -/
def scoreTemplateMatchSpec (p : Persona) (h : Summary) (id : String) : ℤ :=
  clamp100 (50
    + (if p.preferred_template = id then 20 else 0)
    - 3 * |p.energy_level - (energyMap id).getD 5|
    + familyBonusSpec h id
    + (humorBonusTable p.humor_style id).getD 0)

/-- Maximum catalog score, seeded with the loop's initial `bestScore = -1`. -/
def bestCatalogScore (f : String → ℤ) : ℤ :=
  (templateIds.map f).foldl max (-1)

/-- First catalog entry attaining a given score (document order). -/
def firstAttaining (f : String → ℤ) (M : ℤ) : Option String :=
  templateIds.find? (fun id => f id == M)

/-- Claim C5's wording of the five adjustment formulas (`e = energy/10`,
`i = intensity/10`), each rounded to the nearest integer and clamped to
`[0, 100]`. -/
def customizeEnhancementsSpec (p : Persona) (d : EnhDefaults) : EnhLevels :=
  let e : ℚ := (p.energy_level : ℚ) / 10
  let i : ℚ := (p.edit_intensity : ℚ) / 10
  { bgm := clamp100 (jsRound (d.bgm + (1 - e) * 15 - e * 10))
    subtitles := clamp100 (jsRound
      (if p.humor_style = "chaotic" ∨ p.humor_style = "loud" ∨ p.humor_style = "sarcastic"
       then d.subtitles + 20 * i else d.subtitles))
    effects := clamp100 (jsRound (d.effects * (0.5 + 0.5 * i) + 10 * e))
    hook := clamp100 (jsRound (d.hook * (0.6 + 0.4 * e) + 5 * i))
    transitions := clamp100 (jsRound (d.transitions * (0.5 + 0.5 * i) + 5 * e)) }

-- ═══════════════════════════════════════════════════════════════════════════
-- enhancer.js — transitions module
-- ═══════════════════════════════════════════════════════════════════════════

/-- `ClipSegment` as consumed by `enhanceTransitions` (`end` is `stop`). -/
structure EnhSegment where
  start : ℚ
  stop : ℚ
  score : ℤ
  phase : String
deriving DecidableEq

/-- The fields of `ClipPlan` consumed by `enhanceTransitions`. -/
structure EnhPlan where
  segments : List EnhSegment
  templateTransitionStyle : String
deriving DecidableEq

/-- A `TransitionDirective` (with its type-specific `params` flattened into
optional fields). -/
structure TransitionDirective where
  ttype : String
  atTime : ℚ
  duration : ℚ
  phaseChange : Bool
  fromPhase : String
  toPhase : String
  slices : Option ℤ
  rgbShift : Option Bool
  curve : Option String
deriving DecidableEq

/-- The `styleMap` object literal in `enhanceTransitions`. -/
def styleMap (s : String) : Option String :=
  if s = "dramatic-cut" then some "cut"
  else if s = "hard-cut" then some "cut"
  else if s = "glitch-whip" then some "glitch"
  else if s = "crossfade" then some "crossfade"
  else none

/-- One directive of the `enhanceTransitions` loop, for the adjacent pair
`(current, next)`. -/
def transitionDirective (baseType : String) (level : ℚ)
    (cur nxt : EnhSegment) : TransitionDirective :=
  let phaseChange := cur.phase ≠ nxt.phase
  let ttype := if phaseChange ∧ 50 < level
    then (if baseType = "crossfade" then "zoom-through" else "whip")
    else baseType
  let baseDuration : ℚ := if ttype = "cut" then 0 else 0.3
  let duration := baseDuration + level / 400
  { ttype := ttype
    atTime := cur.stop
    duration := round2 duration
    phaseChange := phaseChange
    fromPhase := cur.phase
    toPhase := nxt.phase
    slices := if ttype = "glitch" then some ⌊level / 10⌋ else none
    rgbShift := if ttype = "glitch" then some (decide (60 < level)) else none
    curve := if ttype = "crossfade" then some "easeInOut" else none }

/-- `enhanceTransitions(clipPlan, level)` from `enhancer.js`.  The loop over
`i = 0 … segments.length - 2` is the zip of the segment list with its tail. -/
def enhanceTransitions (plan : EnhPlan) (level : ℚ) : List TransitionDirective :=
  if level = 0 ∨ plan.segments.length < 2 then []
  else
    let baseType := (styleMap plan.templateTransitionStyle).getD "crossfade"
    (plan.segments.zip (plan.segments.drop 1)).map
      (fun pr => transitionDirective baseType level pr.1 pr.2)

-- ═══════════════════════════════════════════════════════════════════════════
-- enhancer.js — claim-side (spec-worded) definitions for C8
-- ═══════════════════════════════════════════════════════════════════════════

/-- Claim C8's wording of a transition directive: identical to the source
except that the duration is `0` whenever the resolved type is a hard cut, and
`0.3 + level/400` (rounded to 2 decimals) otherwise. -/
def transitionDirectiveClaim (baseType : String) (level : ℚ)
    (cur nxt : EnhSegment) : TransitionDirective :=
  let phaseChange := cur.phase ≠ nxt.phase
  let ttype := if phaseChange ∧ 50 < level
    then (if baseType = "crossfade" then "zoom-through" else "whip")
    else baseType
  { ttype := ttype
    atTime := cur.stop
    duration := if ttype = "cut" then 0 else round2 (0.3 + level / 400)
    phaseChange := phaseChange
    fromPhase := cur.phase
    toPhase := nxt.phase
    slices := if ttype = "glitch" then some ⌊level / 10⌋ else none
    rgbShift := if ttype = "glitch" then some (decide (60 < level)) else none
    curve := if ttype = "crossfade" then some "easeInOut" else none }

/-- Claim C8 as stated: the transitions module per the spec sentence,
with a hard cut getting duration `0`. -/
def enhanceTransitionsClaim (plan : EnhPlan) (level : ℚ) : List TransitionDirective :=
  if level = 0 ∨ plan.segments.length < 2 then []
  else
    let baseType := (styleMap plan.templateTransitionStyle).getD "crossfade"
    (plan.segments.zip (plan.segments.drop 1)).map
      (fun pr => transitionDirectiveClaim baseType level pr.1 pr.2)

/-- The amended C8 directive: the only change forced by the code is that a
hard cut's duration is `level/400` (rounded to 2 decimals), not `0`. -/
def transitionDirectiveAmended (baseType : String) (level : ℚ)
    (cur nxt : EnhSegment) : TransitionDirective :=
  let phaseChange := cur.phase ≠ nxt.phase
  let ttype := if phaseChange ∧ 50 < level
    then (if baseType = "crossfade" then "zoom-through" else "whip")
    else baseType
  { ttype := ttype
    atTime := cur.stop
    duration := if ttype = "cut" then round2 (level / 400) else round2 (0.3 + level / 400)
    phaseChange := phaseChange
    fromPhase := cur.phase
    toPhase := nxt.phase
    slices := if ttype = "glitch" then some ⌊level / 10⌋ else none
    rgbShift := if ttype = "glitch" then some (decide (60 < level)) else none
    curve := if ttype = "crossfade" then some "easeInOut" else none }

/-- The amended claim C8, as a full characterization of `enhanceTransitions`. -/
def enhanceTransitionsAmended (plan : EnhPlan) (level : ℚ) : List TransitionDirective :=
  if level = 0 ∨ plan.segments.length < 2 then []
  else
    let baseType := (styleMap plan.templateTransitionStyle).getD "crossfade"
    (plan.segments.zip (plan.segments.drop 1)).map
      (fun pr => transitionDirectiveAmended baseType level pr.1 pr.2)

/-- Concrete two-segment plan used to separate claim C8 from the code:
`hard-cut` template style, two climax segments. -/
def planC8 : EnhPlan :=
  { segments :=
      [{ start := 0, stop := 5, score := 50, phase := "climax" },
       { start := 58, stop := 62, score := 70, phase := "climax" }]
    templateTransitionStyle := "hard-cut" }

-- ═══════════════════════════════════════════════════════════════════════════
-- story-engine.js — data model
-- ═══════════════════════════════════════════════════════════════════════════

/-- A `GameplayMoment`.  `mtype` is the source's `type` (a Lean keyword). -/
structure Moment where
  timestamp : ℚ
  score : ℤ
  mtype : String
  description : String
  isClutch : Bool
  isMultiKill : Bool
  killCount : ℤ
deriving DecidableEq

/-- A template's `structure` record of phase fractions. -/
structure ArcFractions where
  intro : ℚ
  build : ℚ
  climax : ℚ
  outro : ℚ
deriving DecidableEq

/-- The fields of a `StoryTemplate` consumed by `buildStoryArc`
(`structure` is a Lean keyword, so the fractions live in `fracs`; `mood`
only selects random overlay/title pools and is therefore not carried). -/
structure StoryTemplateLite where
  fracs : ArcFractions
deriving DecidableEq

/-- A `StoryBeat` (random `overlayText` omitted; `end` is `stop`;
`type` is `btype`). -/
structure Beat where
  phase : String
  btype : String
  start : ℚ
  stop : ℚ
  intensity : ℤ
  description : String
  effectHint : String
  musicCue : String
  pacing : ℚ
deriving DecidableEq

/-- The phase partition built by `_partitionIntoPhases`. -/
structure Phases where
  hook : List Moment
  rising : List Moment
  climax : List Moment
  falling : List Moment
  outro : List Moment
deriving DecidableEq

/-- `emotionCurve` of a `StoryArc`. -/
structure EmotionCurve where
  opening : ℤ
  midpoint : ℤ
  peak : ℤ
  closing : ℤ
deriving DecidableEq

/-- `structure` of a `StoryArc` (timestamps and total duration). -/
structure ArcTiming where
  hookEnd : ℚ
  risingEnd : ℚ
  climaxEnd : ℚ
  totalDuration : ℚ
deriving DecidableEq

/-- A `StoryArc` (random `id`/`title`/`logline` omitted; the `structure`
field is called `timing`). -/
structure StoryArc where
  beats : List Beat
  timing : ArcTiming
  emotionCurve : EmotionCurve
deriving DecidableEq

-- ═══════════════════════════════════════════════════════════════════════════
-- story-engine.js — embedded functions
-- ═══════════════════════════════════════════════════════════════════════════

/-- `[...moments].sort((a, b) => a.timestamp - b.timestamp)`: a stable sort by
timestamp. -/
def sortByTime (l : List Moment) : List Moment :=
  l.insertionSort (fun a b => a.timestamp ≤ b.timestamp)

/-- The window table of `_findClimaxCenter`: for each window start
`i = 0 … n - w`, the pair of the window's score sum and the timestamp of the
moment at the window's midpoint index `i + ⌊w/2⌋`. -/
def windowPairs (l : List Moment) (w : ℕ) : List (ℤ × ℚ) :=
  (List.range (l.length - w + 1)).map (fun i =>
    (((l.drop i).take w).foldl (fun s m => s + m.score) 0,
     ((l.drop (i + w / 2)).head?.map Moment.timestamp).getD 0))

/-- The window size of `_findClimaxCenter`:
`Math.max(3, Math.floor(n * 0.3))` (exact for every list length). -/
def climaxWindowSize (n : ℕ) : ℕ := max 3 (3 * n / 10)

/-- `_findClimaxCenter(sortedMoments)` from `story-engine.js`.  The loop
carries `bestScore = 0`, `bestCenter = 0` and updates both on a strictly
greater window sum.  The `n ≤ 2` branch reads the last element's timestamp
(the unreachable empty case is mapped to `0`). -/
def findClimaxCenter (l : List Moment) : ℚ :=
  if l.length ≤ 2 then
    ((l.getLast?).map Moment.timestamp).getD 0
  else
    let ps := windowPairs l (climaxWindowSize l.length)
    (ps.foldl (fun acc p => if acc.1 < p.1 then p else acc) (0, 0)).2

/-- The `reduce((a, b) => a.score > b.score ? a : b)` pattern (no initial
value): fold from the first element, keeping the accumulator only on a
strictly greater score — so the last of several tied maxima wins. -/
def bestByScore (m : Moment) (l : List Moment) : Moment :=
  l.foldl (fun a b => if b.score < a.score then a else b) m

/-- `_partitionIntoPhases(sortedMoments, climaxCenter, structure)`.  The
source iterates the sorted list once, pushing each moment into exactly one
phase, which is the same as filtering by each branch's condition; the final
`if` forces the single best-scoring moment into an empty climax (the source
does not remove it from its original phase). -/
def partitionIntoPhases (l : List Moment) (c : ℚ) (st : ArcFractions) : Phases :=
  match l with
  | [] => ⟨[], [], [], [], []⟩
  | first :: rest =>
    let lastT := (((first :: rest).getLast?).map Moment.timestamp).getD 0
    let totalSpan := lastT - first.timestamp
    let hookBudget := totalSpan * st.intro
    let climaxBudget := totalSpan * st.climax
    let inClimax : Moment → Prop := fun m =>
      |m.timestamp - c| < climaxBudget / 2 ∧ 70 ≤ m.score
    let preClimax : Moment → Prop := fun m =>
      m.timestamp < c - climaxBudget / 2
    let hookL := (first :: rest).filter (fun m =>
      decide (¬ inClimax m ∧ preClimax m ∧ m.timestamp - first.timestamp < hookBudget))
    let risingL := (first :: rest).filter (fun m =>
      decide (¬ inClimax m ∧ preClimax m ∧ ¬ (m.timestamp - first.timestamp < hookBudget)))
    let climaxL := (first :: rest).filter (fun m => decide (inClimax m))
    let outroL := (first :: rest).filter (fun m =>
      decide (¬ inClimax m ∧ ¬ preClimax m))
    let climaxL' := if climaxL = [] then [bestByScore first rest] else climaxL
    ⟨hookL, risingL, climaxL', [], outroL⟩

/-- The `contextPadding` constant of `_buildBeats` (seconds). -/
def contextPadding : ℚ := 2

/-- A hook-phase "moment" beat (`overlayText` is drawn from a random pool
and omitted). -/
def hookMomentBeat (m : Moment) : Beat :=
  { phase := "hook", btype := "moment"
    start := max 0 (m.timestamp - contextPadding)
    stop := m.timestamp + contextPadding
    intensity := min 80 (m.score + 20)
    description := m.description
    effectHint := "zoom-pulse", musicCue := "build", pacing := 1 }

/-- The synthesized flash-forward "context" beat used when the hook phase is
empty, built from the given climax moment. -/
def synthHookBeat (m : Moment) : Beat :=
  { phase := "hook", btype := "context"
    start := max 0 (m.timestamp - 1)
    stop := m.timestamp + 1
    intensity := 90
    description := "Flash-forward: preview of the climax"
    effectHint := "flash-white", musicCue := "drop", pacing := 0.5 }

/-- A rising-phase "moment" beat. -/
def risingMomentBeat (m : Moment) : Beat :=
  { phase := "rising", btype := "moment"
    start := max 0 (m.timestamp - contextPadding)
    stop := m.timestamp + contextPadding
    intensity := m.score
    description := m.description
    effectHint := if 70 < m.score then "slight-zoom" else "none"
    musicCue := "build", pacing := 1 }

/-- The tension "transition" beat inserted after a rising moment. -/
def risingTransitionBeat (m : Moment) : Beat :=
  { phase := "rising", btype := "transition"
    start := m.timestamp + contextPadding
    stop := m.timestamp + contextPadding + 0.5
    intensity := ⌊(m.score : ℚ) * 0.6⌋
    description := "Tension transition"
    effectHint := "whip-pan", musicCue := "sustain", pacing := 1.5 }

/-- A climax-phase "moment" beat; the peak gets ±3s padding, slow-motion
pacing and the "drop" cue. -/
def climaxMomentBeat (isPeak : Bool) (m : Moment) : Beat :=
  { phase := "climax", btype := "moment"
    start := max 0 (m.timestamp - (if isPeak then 3 else contextPadding))
    stop := m.timestamp + (if isPeak then 3 else contextPadding)
    intensity := m.score
    description := m.description
    effectHint := if isPeak then "slowmo-zoom" else "zoom"
    musicCue := if isPeak then "drop" else "sustain"
    pacing := if isPeak then 0.5 else 0.75 }

/-- The "reaction" beat emitted right after the peak climax beat. -/
def reactionBeat (m : Moment) : Beat :=
  { phase := "climax", btype := "reaction"
    start := m.timestamp + 3
    stop := m.timestamp + 5
    intensity := 85
    description := "Player/streamer reaction to the peak moment"
    effectHint := "facecam-zoom", musicCue := "sustain", pacing := 1 }

/-- An outro-phase beat. -/
def outroBeat (m : Moment) : Beat :=
  { phase := "outro"
    btype := if m.mtype = "reaction" then "reaction" else "moment"
    start := max 0 (m.timestamp - contextPadding)
    stop := m.timestamp + contextPadding
    intensity := max 30 (m.score - 20)
    description := m.description
    effectHint := "none", musicCue := "quiet", pacing := 1 }

/-- The hook section of `_buildBeats`: one beat per hook moment, or a single
flash-forward from `phases.climax[0]` when the hook phase is empty. -/
def hookBeats (ph : Phases) : List Beat :=
  match ph.hook with
  | [] =>
    match ph.climax with
    | [] => []
    | c0 :: _ => [synthHookBeat c0]
  | hs => hs.map hookMomentBeat

/-- The rising section of `_buildBeats`: a moment beat per rising moment and
a transition beat after each except the last (`moment !== rising[length-1]`,
embedded positionally — the moments of a run are pairwise distinct objects). -/
def risingBeats : List Moment → List Beat
  | [] => []
  | [m] => [risingMomentBeat m]
  | m :: m2 :: rest => risingMomentBeat m :: risingTransitionBeat m :: risingBeats (m2 :: rest)

/-- The climax section of `_buildBeats`: a moment beat per climax moment,
with the peak (the `reduce` maximum) getting special treatment and a
following reaction beat. -/
def climaxBeats (l : List Moment) : List Beat :=
  match l with
  | [] => []
  | c0 :: cr =>
    let peak := bestByScore c0 cr
    (c0 :: cr).flatMap (fun m =>
      climaxMomentBeat (m = peak) m ::
        (if m = peak then [reactionBeat m] else []))

/-- `beats.sort((a, b) => a.start - b.start)`: stable sort by start time. -/
def sortBeatsByStart (l : List Beat) : List Beat :=
  l.insertionSort (fun a b => a.start ≤ b.start)

/-- `_buildBeats(phases, template, persona)` from `story-engine.js`
(`template` only feeds the random overlay-text pools and `persona` is unused
by the source, so neither is a parameter here). -/
def buildBeats (ph : Phases) : List Beat :=
  sortBeatsByStart
    (hookBeats ph ++ risingBeats ph.rising ++ climaxBeats ph.climax
      ++ ph.outro.map outroBeat)

/-- The `avg` helper of `_calculateEmotionCurve`:
`arr.length > 0 ? Math.round(sum / length) : 0`. -/
def jsAvg (l : List ℤ) : ℤ :=
  match l with
  | [] => 0
  | _ => jsRound ((l.foldl (fun s x => s + x) 0 : ℤ) / (l.length : ℚ))

/-- `_calculateEmotionCurve(beats)` from `story-engine.js`.  Each `||`
fallback fires on the value `0` (JS falsiness), not merely on an empty
phase. -/
def calculateEmotionCurve (beats : List Beat) : EmotionCurve :=
  match beats with
  | [] => ⟨0, 0, 0, 0⟩
  | _ =>
    let hookI := (beats.filter (fun b => b.phase == "hook")).map Beat.intensity
    let risingI := (beats.filter (fun b => b.phase == "rising")).map Beat.intensity
    let climaxI := (beats.filter (fun b => b.phase == "climax")).map Beat.intensity
    let outroI := (beats.filter (fun b => b.phase == "outro")).map Beat.intensity
    { opening := jsOr (jsAvg hookI) 60
      midpoint := jsOr (jsAvg risingI) 50
      peak := jsOr (climaxI.foldl max 0) 95
      closing := jsOr (jsAvg outroI) 40 }

/-- `_emptyArc(template)`: the fixed empty arc. -/
def emptyArc : StoryArc :=
  ⟨[], ⟨0, 0, 0, 0⟩, ⟨0, 0, 0, 0⟩⟩

/-- One structure timestamp of `buildStoryArc`:
`beats.filter(b => b.phase === phase).reduce((max, b) => Math.max(max, b.end), seed)`. -/
def phaseEndFold (phase : String) (seed : ℚ) (beats : List Beat) : ℚ :=
  (beats.filter (fun b => b.phase == phase)).foldl (fun mx b => max mx b.stop) seed

/-- `beats.reduce((sum, b) => sum + (b.end - b.start), 0)`. -/
def totalDur (beats : List Beat) : ℚ :=
  beats.foldl (fun s b => s + (b.stop - b.start)) 0

/-- The arc assembled from a beat list: the three structure timestamps (each
seeded with the previous one), the total duration and the emotion curve. -/
def arcFromBeats (beats : List Beat) : StoryArc :=
  let hookEnd := phaseEndFold "hook" 0 beats
  let risingEnd := phaseEndFold "rising" hookEnd beats
  let climaxEnd := phaseEndFold "climax" risingEnd beats
  ⟨beats, ⟨hookEnd, risingEnd, climaxEnd, totalDur beats⟩, calculateEmotionCurve beats⟩

/-- `buildStoryArc(moments, template, persona)` from `story-engine.js`
(persona is never consumed by the computation of beats, structure or the
emotion curve). -/
def buildStoryArc (moments : List Moment) (tmpl : StoryTemplateLite) : StoryArc :=
  match moments with
  | [] => emptyArc
  | m :: rest =>
    arcFromBeats (buildBeats (partitionIntoPhases (sortByTime (m :: rest))
      (findClimaxCenter (sortByTime (m :: rest))) tmpl.fracs))

-- ═══════════════════════════════════════════════════════════════════════════
-- story-engine.js — claim-side (spec-worded) definitions
-- ═══════════════════════════════════════════════════════════════════════════

/-- The maximum window score-sum of the climax-detection slide (the genuine
maximum over all window positions, for claim C1). -/
def maxWindowSum (l : List Moment) : ℤ :=
  match windowPairs l (climaxWindowSize l.length) with
  | [] => 0
  | p :: t => (t.map Prod.fst).foldl max p.1

/-- Claim C1's wording of the climax center: for `n ≤ 2` the last moment's
timestamp; otherwise slide the window, take the position of maximum sum
(earliest position on ties) and return the timestamp of the moment at that
window's midpoint index. -/
def claimClimaxCenter (l : List Moment) : ℚ :=
  if l.length ≤ 2 then ((l.getLast?).map Moment.timestamp).getD 0
  else
    match windowPairs l (climaxWindowSize l.length) with
    | [] => 0
    | p :: t =>
      let M := (t.map Prod.fst).foldl max p.1
      ((((p :: t).find? (fun q => q.1 == M)).map Prod.snd).getD 0)

/-- Claim C9's wording of the synthesized hook section: when the hook phase
is empty, a single flash-forward teaser built from the top (highest-scoring)
climax moment. -/
def claimC9HookBeats (ph : Phases) : List Beat :=
  match ph.climax with
  | [] => []
  | c0 :: cr => [synthHookBeat (bestByScore c0 cr)]

/-- Claim C6's wording of the emotion curve: rounded average intensity per
phase with the fallbacks 60/50/40 used exactly when the phase has no beats,
and peak the maximum climax intensity with fallback 95 exactly when there are
no climax beats. -/
def claimEmotionCurve (beats : List Beat) : EmotionCurve :=
  let hookI := (beats.filter (fun b => b.phase == "hook")).map Beat.intensity
  let risingI := (beats.filter (fun b => b.phase == "rising")).map Beat.intensity
  let climaxI := (beats.filter (fun b => b.phase == "climax")).map Beat.intensity
  let outroI := (beats.filter (fun b => b.phase == "outro")).map Beat.intensity
  { opening := if hookI = [] then 60 else jsAvg hookI
    midpoint := if risingI = [] then 50 else jsAvg risingI
    peak := if climaxI = [] then 95 else climaxI.foldl max 0
    closing := if outroI = [] then 40 else jsAvg outroI }

/-- Concrete inputs used by the counterexamples and witnesses below. -/
def mkMoment (t : ℚ) (s : ℤ) : Moment :=
  ⟨t, s, "kill", "moment", false, false, 0⟩

/-- The `comeback-king` structure fractions from `templates.js`. -/
def comebackFracs : ArcFractions := ⟨1/10, 35/100, 2/5, 3/20⟩

/-- The `comeback-king` template, reduced to the fields `buildStoryArc`
consumes. -/
def comebackTmpl : StoryTemplateLite := ⟨comebackFracs⟩

/-- Three chronologically ordered moments whose scores are all zero:
every window sum is zero, so the detection loop never updates its
`bestCenter = 0` initial value. -/
def momentsC1 : List Moment := [mkMoment 10 0, mkMoment 20 0, mkMoment 30 0]

/-- Four moments for which the rising phase holds exactly one zero-score
moment (so the rounded rising average is `0` and the `|| 50` fallback
fires despite the phase being non-empty). -/
def momentsC6 : List Moment :=
  [mkMoment 0 0, mkMoment 40 0, mkMoment 90 80, mkMoment 100 80]

/-- Three moments whose phase partition leaves the hook empty while the
climax phase holds two moments, the chronologically first of which is not
the highest-scoring one. -/
def momentsC9 : List Moment := [mkMoment 0 75, mkMoment 2 99, mkMoment 30 10]

/-- A single high-scoring moment (witness input). -/
def momentsW : List Moment := [mkMoment 10 80]

/-- The amended claim C6's emotion curve: the rounded per-phase average with
each fallback firing exactly when the computed value is `0` — which happens
when the phase has no beats, and also when a non-empty phase's rounded
average is `0` (JS `||` falsiness). -/
def claimAmendedCurve (beats : List Beat) : EmotionCurve :=
  let hookI := (beats.filter (fun b => b.phase == "hook")).map Beat.intensity
  let risingI := (beats.filter (fun b => b.phase == "rising")).map Beat.intensity
  let climaxI := (beats.filter (fun b => b.phase == "climax")).map Beat.intensity
  let outroI := (beats.filter (fun b => b.phase == "outro")).map Beat.intensity
  { opening := jsOr (jsAvg hookI) 60
    midpoint := jsOr (jsAvg risingI) 50
    peak := jsOr (climaxI.foldl max 0) 95
    closing := jsOr (jsAvg outroI) 40 }

/-- The phase partition `buildStoryArc` computes for `momentsC6`. -/
def phasesC6 : Phases :=
  ⟨[mkMoment 0 0], [mkMoment 40 0], [mkMoment 90 80, mkMoment 100 80], [], []⟩

/-- The beats `buildStoryArc` computes for `momentsC6`. -/
def beatsC6 : List Beat :=
  [hookMomentBeat (mkMoment 0 0), risingMomentBeat (mkMoment 40 0),
   climaxMomentBeat false (mkMoment 90 80), climaxMomentBeat true (mkMoment 100 80),
   reactionBeat (mkMoment 100 80)]

/-- The phase partition `buildStoryArc` computes for `momentsC9`: the hook is
empty and the climax holds two moments whose first is not the top scorer. -/
def phasesC9 : Phases :=
  ⟨[], [], [mkMoment 0 75, mkMoment 2 99], [], [mkMoment 30 10]⟩

/-- The beats `buildStoryArc` computes for `momentsC9`. -/
def beatsC9 : List Beat :=
  [synthHookBeat (mkMoment 0 75), climaxMomentBeat false (mkMoment 0 75),
   climaxMomentBeat true (mkMoment 2 99), reactionBeat (mkMoment 2 99),
   outroBeat (mkMoment 30 10)]

-- ═══════════════════════════════════════════════════════════════════════════
-- Theorems
-- ═══════════════════════════════════════════════════════════════════════════

/-- The source's 8 sequential family-bonus additions agree with the
per-family rule chain of claim C3. -/
theorem familySum_eq_spec (h : Summary) (id : String) :
    (if id = "comeback-king" ∧ 3 < h.momentumSwings then (15 : ℤ) else 0)
    + (if id = "clutch-master" ∧ 2 < h.clutchCount then 15 else 0)
    + (if id = "rage-quit-montage" ∧ 2 < h.rageIndicators then 15 else 0)
    + (if id = "chill-highlights" ∧ h.avgScore < 50 then 10 else 0)
    + (if id = "kill-montage" ∧ 95 ≤ h.maxScore then 15 else 0)
    + (if id = "session-story" ∧ 10 < h.count then 12 else 0)
    + (if id = "tiktok-vertical" ∧ 85 ≤ h.maxScore then 10 else 0)
    + (if id = "hype-montage" ∧ 70 < h.avgScore then 12 else 0)
    = familyBonusSpec h id := by
  unfold familyBonusSpec
  by_cases h1 : id = "comeback-king"
  · subst h1; simp
  by_cases h2 : id = "clutch-master"
  · subst h2; simp
  by_cases h3 : id = "rage-quit-montage"
  · subst h3; simp
  by_cases h4 : id = "chill-highlights"
  · subst h4; simp
  by_cases h5 : id = "kill-montage"
  · subst h5; simp
  by_cases h6 : id = "session-story"
  · subst h6; simp
  by_cases h7 : id = "tiktok-vertical"
  · subst h7; simp
  by_cases h8 : id = "hype-montage"
  · subst h8; simp
  simp [h1, h2, h3, h4, h5, h6, h7, h8]

/-- Claim C3: for every persona, highlight summary and template, the
per-template match score is 50, plus 20 for the preferred template, minus
`3 × |energy − template_energy|` with the fixed per-template energy lookup
defaulting to 5, plus the single matching template-family threshold bonus,
plus the fixed humor-style × template bonus (0 if no entry), clamped to
`[0, 100]`. -/
theorem C3_scoreTemplateMatch_spec (p : Persona) (h : Summary) (id : String) :
    scoreTemplateMatch p h id = scoreTemplateMatchSpec p h id := by
  unfold scoreTemplateMatch scoreTemplateMatchSpec clamp100
  rw [← familySum_eq_spec h id]
  by_cases hp : p.preferred_template = id
  · simp only [if_pos hp]
    refine congrArg (fun z => max 0 (min 100 z)) ?_
    ring
  · simp only [if_neg hp]
    refine congrArg (fun z => max 0 (min 100 z)) ?_
    ring

/-- Claim C5: the five customized enhancement levels follow the claimed
formulas (with `e = energy/10`, `i = intensity/10`), each rounded to the
nearest integer and clamped to `[0, 100]`; consequently every output is an
integer in `[0, 100]`. -/
theorem C5_customizeEnhancements_spec (p : Persona) (d : EnhDefaults) :
    customizeEnhancements p d = customizeEnhancementsSpec p d
    ∧ (0 ≤ (customizeEnhancements p d).bgm ∧ (customizeEnhancements p d).bgm ≤ 100)
    ∧ (0 ≤ (customizeEnhancements p d).subtitles ∧ (customizeEnhancements p d).subtitles ≤ 100)
    ∧ (0 ≤ (customizeEnhancements p d).effects ∧ (customizeEnhancements p d).effects ≤ 100)
    ∧ (0 ≤ (customizeEnhancements p d).hook ∧ (customizeEnhancements p d).hook ≤ 100)
    ∧ (0 ≤ (customizeEnhancements p d).transitions ∧ (customizeEnhancements p d).transitions ≤ 100) := by
  have hclamp : ∀ z : ℤ, 0 ≤ max 0 (min 100 z) ∧ max 0 (min 100 z) ≤ 100 := by
    intro z
    exact ⟨le_max_left _ _, max_le (by norm_num) (min_le_left _ _)⟩
  refine ⟨?_, ?_, ?_, ?_, ?_, ?_⟩
  · by_cases hh : p.humor_style = "chaotic" ∨ p.humor_style = "loud" ∨ p.humor_style = "sarcastic"
    · simp only [customizeEnhancements, customizeEnhancementsSpec, clamp100, if_pos hh]
      congr 1 <;> exact congrArg (fun q => max 0 (min 100 (jsRound q))) (by ring)
    · simp only [customizeEnhancements, customizeEnhancementsSpec, clamp100, if_neg hh]
      congr 1 <;> exact congrArg (fun q => max 0 (min 100 (jsRound q))) (by ring)
  all_goals
    simp only [customizeEnhancements]
    exact hclamp _

/-- Claim C8, amended: `enhanceTransitions` emits one directive per adjacent
pair with the claimed base-type resolution and upgrade rule, but a hard cut's
duration is `level/400` rounded to 2 decimals (the code adds `level/400` to
every base duration), not `0`. -/
theorem C8_enhanceTransitions_amended (plan : EnhPlan) (level : ℚ) :
    enhanceTransitions plan level = enhanceTransitionsAmended plan level := by
  simp only [enhanceTransitions, enhanceTransitionsAmended]
  split
  · rfl
  · refine List.map_congr_left ?_
    intro pr _
    simp only [transitionDirective, transitionDirectiveAmended]
    split_ifs <;> simp [TransitionDirective.mk.injEq]

/-- Claim C8, counterexample: on a two-segment `hard-cut` plan at level 40
the emitted directive is a `cut` with duration `0.1`, while the claim as
stated predicts duration `0`. -/
theorem C8_counterexample :
    enhanceTransitions planC8 40 ≠ enhanceTransitionsClaim planC8 40 := by
  have h1 : (enhanceTransitions planC8 40).map TransitionDirective.duration = [1/10] := by
    norm_num [enhanceTransitions, planC8, styleMap, transitionDirective, round2, jsRound]
  have h2 : (enhanceTransitionsClaim planC8 40).map TransitionDirective.duration = [0] := by
    norm_num [enhanceTransitionsClaim, planC8, styleMap, transitionDirectiveClaim, round2, jsRound]
  intro hEq
  rw [hEq, h2] at h1
  norm_num at h1

-- ───────────────────────────────────────────────────────────────────────────
-- Fold lemmas for the climax-detection loop (claim C1)
-- ───────────────────────────────────────────────────────────────────────────

/-- A seed is below any `foldl max` over it. -/
theorem le_foldl_max {α : Type} [LinearOrder α] :
    ∀ (l : List α) (a : α), a ≤ l.foldl max a := by
  intro l
  induction l with
  | nil => intro a; exact le_refl a
  | cons x t ih =>
    intro a
    exact le_trans (le_max_left a x) (ih (max a x))

/-- Every member is below the `foldl max`. -/
theorem mem_le_foldl_max {α : Type} [LinearOrder α] :
    ∀ (l : List α) (a x : α), x ∈ l → x ≤ l.foldl max a := by
  intro l
  induction l with
  | nil => intro a x hx; cases hx
  | cons y t ih =>
    intro a x hx
    rcases List.mem_cons.mp hx with hxy | hxt
    · subst hxy
      exact le_trans (le_max_right a x) (le_foldl_max t (max a x))
    · exact ih (max a y) x hxt

/-- `foldl max` distributes over a `max` in the seed. -/
theorem foldl_max_max {α : Type} [LinearOrder α] :
    ∀ (l : List α) (s t : α), l.foldl max (max s t) = max s (l.foldl max t) := by
  intro l
  induction l with
  | nil => intro s t; rfl
  | cons x xs ih =>
    intro s t
    rw [List.foldl_cons, List.foldl_cons, max_assoc, ih]

/-- The detection loop never updates when every window sum is below the
accumulator. -/
theorem sfold_keep :
    ∀ (ps : List (ℤ × ℚ)) (acc : ℤ × ℚ), (∀ p ∈ ps, p.1 ≤ acc.1) →
      ps.foldl (fun acc p => if acc.1 < p.1 then p else acc) acc = acc := by
  intro ps
  induction ps with
  | nil => intro acc _; rfl
  | cons q t ih =>
    intro acc h
    rw [List.foldl_cons, if_neg (not_lt.mpr (h q (List.mem_cons_self q t)))]
    exact ih acc (fun p hp => h p (List.mem_cons_of_mem q hp))

/-- When the accumulator is strictly below the maximum window sum, the
detection loop lands exactly on the earliest pair attaining that maximum. -/
theorem sfold_find :
    ∀ (ps : List (ℤ × ℚ)) (acc : ℤ × ℚ),
      acc.1 < (ps.map Prod.fst).foldl max acc.1 →
      ps.find? (fun q => q.1 == (ps.map Prod.fst).foldl max acc.1)
        = some (ps.foldl (fun acc p => if acc.1 < p.1 then p else acc) acc) := by
  intro ps
  induction ps with
  | nil =>
    intro acc h
    exact absurd h (lt_irrefl _)
  | cons q t ih =>
    intro acc h
    simp only [List.map_cons, List.foldl_cons] at h ⊢
    by_cases hq : q.1 = (t.map Prod.fst).foldl max (max acc.1 q.1)
    · have hlt : acc.1 < q.1 := by
        rw [hq]; exact h
      rw [if_pos hlt]
      have hkeep : t.foldl (fun acc p => if acc.1 < p.1 then p else acc) q = q := by
        refine sfold_keep t q (fun p hp => ?_)
        rw [hq]
        exact mem_le_foldl_max (t.map Prod.fst) _ p.1 (List.mem_map_of_mem Prod.fst hp)
      rw [hkeep]
      have hbeq : (fun p : ℤ × ℚ => p.1 == (t.map Prod.fst).foldl max (max acc.1 q.1)) q = true := by
        show (q.1 == _) = true
        exact beq_iff_eq.mpr hq
      exact List.find?_cons_of_pos t hbeq
    · have hle : q.1 ≤ (t.map Prod.fst).foldl max (max acc.1 q.1) :=
        le_trans (le_max_right acc.1 q.1) (le_foldl_max (t.map Prod.fst) _)
      have hqlt : q.1 < (t.map Prod.fst).foldl max (max acc.1 q.1) :=
        lt_of_le_of_ne hle hq
      have hacc : (if acc.1 < q.1 then q else acc).1 = max acc.1 q.1 := by
        split
        · exact (max_eq_right (le_of_lt (by assumption))).symm
        · exact (max_eq_left (not_lt.mp (by assumption))).symm
      have hlt2 : (if acc.1 < q.1 then q else acc).1
          < (t.map Prod.fst).foldl max (if acc.1 < q.1 then q else acc).1 := by
        rw [hacc]
        exact max_lt h hqlt
      have := ih (if acc.1 < q.1 then q else acc) hlt2
      rw [hacc] at this
      have hbeq : ¬ (fun p : ℤ × ℚ => p.1 == (t.map Prod.fst).foldl max (max acc.1 q.1)) q = true := by
        show ¬ (q.1 == _) = true
        intro hcontra
        exact hq (beq_iff_eq.mp hcontra)
      rw [List.find?_cons_of_neg t hbeq]
      exact this

/-- Claim C1, amended: for `n ≤ 2` the climax center is the last sorted
moment's timestamp; for `n ≥ 3` it is the timestamp of the midpoint moment of
the earliest window attaining the maximum window score-sum — provided that
maximum is positive.  When every window sum is `≤ 0` (e.g. all scores zero),
the loop's `bestScore = 0, bestCenter = 0` initialization wins and the center
is `0` instead. -/
theorem C1_findClimaxCenter_amended (l : List Moment) (_h : l ≠ []) :
    findClimaxCenter l =
      if l.length ≤ 2 then ((l.getLast?).map Moment.timestamp).getD 0
      else if 0 < maxWindowSum l then claimClimaxCenter l else 0 := by
  by_cases h2 : l.length ≤ 2
  · rw [findClimaxCenter, if_pos h2, if_pos h2]
  · rw [findClimaxCenter, if_neg h2, if_neg h2, claimClimaxCenter, if_neg h2, maxWindowSum]
    cases hps : windowPairs l (climaxWindowSize l.length) with
    | nil => simp
    | cons p t =>
      dsimp only
      by_cases hM : 0 < (t.map Prod.fst).foldl max p.1
      · rw [if_pos hM]
        have hseed : ((p :: t).map Prod.fst).foldl max (0 : ℤ)
            = (t.map Prod.fst).foldl max p.1 := by
          simp only [List.map_cons, List.foldl_cons]
          rw [foldl_max_max]
          exact max_eq_right (le_of_lt hM)
        have h0 : ((0, 0) : ℤ × ℚ).1 < ((p :: t).map Prod.fst).foldl max ((0, 0) : ℤ × ℚ).1 := by
          show (0 : ℤ) < _
          rw [hseed]
          exact hM
        have hfind := sfold_find (p :: t) (0, 0) h0
        rw [hseed] at hfind
        rw [hfind]
        rfl
      · rw [if_neg hM]
        have hall : ∀ q ∈ p :: t, q.1 ≤ ((0, 0) : ℤ × ℚ).1 := by
          intro q hq
          have hle : q.1 ≤ (t.map Prod.fst).foldl max p.1 := by
            rcases List.mem_cons.mp hq with hqp | hqt
            · subst hqp; exact le_foldl_max _ _
            · exact mem_le_foldl_max (t.map Prod.fst) _ q.1 (List.mem_map_of_mem Prod.fst hqt)
          exact le_trans hle (not_lt.mp hM)
        rw [sfold_keep (p :: t) (0, 0) hall]

/-- Claim C1, counterexample: three moments with all-zero scores.  Every
window sum is zero, the loop never updates, and the code returns `0` — while
the claim's earliest-max-window rule returns the midpoint moment's timestamp
`20`. -/
theorem C1_counterexample : findClimaxCenter momentsC1 ≠ claimClimaxCenter momentsC1 := by
  have h1 : findClimaxCenter momentsC1 = 0 := by
    simp +decide [findClimaxCenter, momentsC1, mkMoment, windowPairs, climaxWindowSize,
      List.range_succ]
  have h2 : claimClimaxCenter momentsC1 = 20 := by
    simp +decide [claimClimaxCenter, momentsC1, mkMoment, windowPairs, climaxWindowSize,
      List.range_succ]
  rw [h1, h2]
  norm_num

/-- Witness for the amended claim C1, at a three-moment input with a positive
maximum window sum. -/
theorem C1_witness :
    momentsC9 ≠ [] ∧
    findClimaxCenter momentsC9 =
      (if momentsC9.length ≤ 2 then ((momentsC9.getLast?).map Moment.timestamp).getD 0
       else if 0 < maxWindowSum momentsC9 then claimClimaxCenter momentsC9 else 0) :=
  ⟨by simp [momentsC9], C1_findClimaxCenter_amended momentsC9 (by simp [momentsC9])⟩

-- ───────────────────────────────────────────────────────────────────────────
-- Selection-loop lemmas for the template matcher (claim C4)
-- ───────────────────────────────────────────────────────────────────────────

/-- The selection loop never updates when every score is below the running
best. -/
theorem matchLoop_keep (f : String → ℤ) :
    ∀ (l : List String) (acc : Option String × ℤ), (∀ id ∈ l, f id ≤ acc.2) →
      matchLoop f l acc = acc := by
  intro l
  induction l with
  | nil => intro acc _; rfl
  | cons id rest ih =>
    intro acc h
    rw [matchLoop, if_neg (not_lt.mpr (h id (List.mem_cons_self id rest)))]
    exact ih acc (fun j hj => h j (List.mem_cons_of_mem id hj))

/-- When the running best is strictly below the maximum remaining score, the
selection loop lands on the earliest catalog entry attaining that maximum. -/
theorem matchLoop_find (f : String → ℤ) :
    ∀ (l : List String) (acc : Option String × ℤ),
      acc.2 < (l.map f).foldl max acc.2 →
      matchLoop f l acc
        = (l.find? (fun id => f id == (l.map f).foldl max acc.2),
           (l.map f).foldl max acc.2) := by
  intro l
  induction l with
  | nil =>
    intro acc h
    exact absurd h (lt_irrefl _)
  | cons id rest ih =>
    intro acc h
    simp only [List.map_cons, List.foldl_cons] at h ⊢
    rw [matchLoop]
    by_cases hid : f id = (rest.map f).foldl max (max acc.2 (f id))
    · have hlt : acc.2 < f id := by rw [hid]; exact h
      rw [if_pos hlt]
      have hkeep : matchLoop f rest (some id, f id) = (some id, f id) := by
        refine matchLoop_keep f rest (some id, f id) (fun j hj => ?_)
        show f j ≤ f id
        rw [hid]
        exact mem_le_foldl_max (rest.map f) _ (f j) (List.mem_map_of_mem f hj)
      rw [hkeep]
      have hbeq : (fun j => f j == (rest.map f).foldl max (max acc.2 (f id))) id = true := by
        show (f id == _) = true
        exact beq_iff_eq.mpr hid
      rw [List.find?_cons_of_pos rest hbeq]
      exact congrArg (fun z => (some id, z)) hid
    · have hle : f id ≤ (rest.map f).foldl max (max acc.2 (f id)) :=
        le_trans (le_max_right acc.2 (f id)) (le_foldl_max (rest.map f) _)
      have hidlt : f id < (rest.map f).foldl max (max acc.2 (f id)) :=
        lt_of_le_of_ne hle hid
      have hacc : (if acc.2 < f id then (some id, f id) else acc).2 = max acc.2 (f id) := by
        split
        · exact (max_eq_right (le_of_lt (by assumption))).symm
        · exact (max_eq_left (not_lt.mp (by assumption))).symm
      have hlt2 : (if acc.2 < f id then (some id, f id) else acc).2
          < (rest.map f).foldl max (if acc.2 < f id then (some id, f id) else acc).2 := by
        rw [hacc]
        exact max_lt h hidlt
      have hrec := ih (if acc.2 < f id then (some id, f id) else acc) hlt2
      rw [hacc] at hrec
      have hbeq : ¬ (fun j => f j == (rest.map f).foldl max (max acc.2 (f id))) id = true := by
        show ¬ (f id == _) = true
        intro hcontra
        exact hid (beq_iff_eq.mp hcontra)
      rw [List.find?_cons_of_neg rest hbeq]
      exact hrec

/-- Every template-match score is nonnegative (final clamp at `0`). -/
theorem scoreTemplateMatch_nonneg (p : Persona) (h : Summary) (id : String) :
    0 ≤ scoreTemplateMatch p h id :=
  le_max_left 0 _

/-- The `allScores` association list looks up exactly the catalog scores. -/
theorem lookup_allScoresList (f : String → ℤ) (x : String) :
    (allScoresList f).lookup x = if x ∈ templateIds then some (f x) else none := by
  unfold allScoresList
  induction templateIds with
  | nil => simp
  | cons id rest ih =>
    by_cases hx : x = id
    · subst hx
      simp [List.lookup]
    · have hfalse : (x == id) = false := beq_eq_false_iff_ne.mpr hx
      simp only [List.map_cons, List.lookup, hfalse]
      rw [ih]
      simp [List.mem_cons, hx]

/-- Claim C4: `matchTemplate` returns the maximum catalog score, together
with the preferred template whenever the preferred template attains that
maximum, and otherwise the first catalog entry attaining it (document
order). -/
theorem C4_matchTemplate_spec (p : Persona) (h : Summary) :
    matchTemplate p h =
      (if p.preferred_template ∈ templateIds ∧
          scoreTemplateMatch p h p.preferred_template
            = bestCatalogScore (scoreTemplateMatch p h)
       then some p.preferred_template
       else firstAttaining (scoreTemplateMatch p h) (bestCatalogScore (scoreTemplateMatch p h)),
       bestCatalogScore (scoreTemplateMatch p h)) := by
  have hne : ("" : String) ∉ templateIds := by decide
  have hM0 : (-1 : ℤ) < (templateIds.map (scoreTemplateMatch p h)).foldl max (-1) := by
    have hmem : scoreTemplateMatch p h "comeback-king"
        ∈ templateIds.map (scoreTemplateMatch p h) := by
      exact List.mem_map_of_mem _ (by decide)
    calc (-1 : ℤ) < 0 := by norm_num
    _ ≤ scoreTemplateMatch p h "comeback-king" := scoreTemplateMatch_nonneg p h _
    _ ≤ _ := mem_le_foldl_max _ _ _ hmem
  have hloop := matchLoop_find (scoreTemplateMatch p h) templateIds ((none, -1)) hM0
  unfold matchTemplate bestCatalogScore firstAttaining
  simp only []
  rw [hloop]
  rw [lookup_allScoresList]
  by_cases hcond : p.preferred_template ∈ templateIds ∧
      scoreTemplateMatch p h p.preferred_template
        = (templateIds.map (scoreTemplateMatch p h)).foldl max (-1)
  · rw [if_pos hcond]
    have hpre : p.preferred_template ≠ "" := by
      intro hempty
      rw [hempty] at hcond
      exact hne hcond.1
    rw [if_pos ⟨hpre, by rw [if_pos hcond.1, hcond.2]⟩]
  · rw [if_neg hcond]
    rw [if_neg ?hneg]
    case hneg =>
      intro hcontra
      apply hcond
      by_cases hmem : p.preferred_template ∈ templateIds
      · refine ⟨hmem, ?_⟩
        have := hcontra.2
        rw [if_pos hmem] at this
        exact Option.some.inj this
      · rw [if_neg hmem] at hcontra
        exact absurd hcontra.2 (by simp)

-- ───────────────────────────────────────────────────────────────────────────
-- Story-engine structural lemmas
-- ───────────────────────────────────────────────────────────────────────────

/-- Sorting by timestamp is a permutation. -/
theorem sortByTime_perm (l : List Moment) : (sortByTime l).Perm l :=
  List.perm_insertionSort _ l

/-- Sorting beats by start time is a permutation. -/
theorem sortBeatsByStart_perm (l : List Beat) : (sortBeatsByStart l).Perm l :=
  List.perm_insertionSort _ l

/-- Membership is preserved by the timestamp sort. -/
theorem mem_sortByTime {l : List Moment} {m : Moment} :
    m ∈ sortByTime l ↔ m ∈ l :=
  (sortByTime_perm l).mem_iff

/-- Membership is preserved by the beat sort. -/
theorem mem_sortBeatsByStart {l : List Beat} {b : Beat} :
    b ∈ sortBeatsByStart l ↔ b ∈ l :=
  (sortBeatsByStart_perm l).mem_iff

/-- The `reduce` maximum-score pick is a member of the reduced list. -/
theorem bestByScore_mem : ∀ (l : List Moment) (m : Moment), bestByScore m l ∈ m :: l := by
  intro l
  induction l with
  | nil => intro m; exact List.mem_cons_self m []
  | cons b t ih =>
    intro m
    unfold bestByScore at ih ⊢
    rw [List.foldl_cons]
    rcases List.mem_cons.mp (ih (if b.score < m.score then m else b)) with hh | ht
    · rw [hh]
      split
      · exact List.mem_cons_self m (b :: t)
      · exact List.mem_cons_of_mem m (List.mem_cons_self b t)
    · exact List.mem_cons_of_mem m (List.mem_cons_of_mem b ht)

/-- The climax phase of a partition of a non-empty list is non-empty. -/
theorem partition_climax_ne (first : Moment) (rest : List Moment) (c : ℚ)
    (st : ArcFractions) :
    (partitionIntoPhases (first :: rest) c st).climax ≠ [] := by
  rw [partitionIntoPhases]
  simp only []
  split
  · exact List.cons_ne_nil _ _
  · assumption

/-- Every moment in any phase of the partition comes from the input list. -/
theorem partition_mem (first : Moment) (rest : List Moment) (c : ℚ)
    (st : ArcFractions) :
    (∀ m ∈ (partitionIntoPhases (first :: rest) c st).hook, m ∈ first :: rest)
    ∧ (∀ m ∈ (partitionIntoPhases (first :: rest) c st).rising, m ∈ first :: rest)
    ∧ (∀ m ∈ (partitionIntoPhases (first :: rest) c st).climax, m ∈ first :: rest)
    ∧ (∀ m ∈ (partitionIntoPhases (first :: rest) c st).outro, m ∈ first :: rest) := by
  rw [partitionIntoPhases]
  simp only []
  refine ⟨fun m hm => (List.mem_filter.mp hm).1, fun m hm => (List.mem_filter.mp hm).1,
    ?_, fun m hm => (List.mem_filter.mp hm).1⟩
  intro m hm
  split at hm
  · rcases List.mem_cons.mp hm with hb | hnil
    · rw [hb]; exact bestByScore_mem rest first
    · cases hnil
  · exact (List.mem_filter.mp hm).1

/-- The phase labels of the beats produced by each section of
`_buildBeats`. -/
theorem hookBeats_phase (ph : Phases) : ∀ b ∈ hookBeats ph, b.phase = "hook" := by
  intro b hb
  unfold hookBeats at hb
  rcases hph : ph.hook with _ | ⟨m, ms⟩
  · rw [hph] at hb
    rcases hcl : ph.climax with _ | ⟨c0, cr⟩ <;> rw [hcl] at hb
    · cases hb
    · rcases List.mem_cons.mp hb with hsb | hnil
      · rw [hsb]; rfl
      · cases hnil
  · rw [hph] at hb
    rcases List.mem_map.mp hb with ⟨m', _, hbm⟩
    rw [← hbm]
    rfl

/-- The rising section only produces rising-phase beats. -/
theorem risingBeats_phase : ∀ (l : List Moment), ∀ b ∈ risingBeats l, b.phase = "rising" := by
  intro l
  induction l with
  | nil => intro b hb; cases hb
  | cons m t ih =>
    intro b hb
    cases t with
    | nil =>
      rcases List.mem_cons.mp hb with hb1 | hnil
      · rw [hb1]; rfl
      · cases hnil
    | cons m2 t2 =>
      rcases List.mem_cons.mp hb with hb1 | hb2
      · rw [hb1]; rfl
      · rcases List.mem_cons.mp hb2 with hb3 | hb4
        · rw [hb3]; rfl
        · exact ih b hb4

/-- The climax section only produces climax-phase beats. -/
theorem climaxBeats_phase (l : List Moment) : ∀ b ∈ climaxBeats l, b.phase = "climax" := by
  intro b hb
  unfold climaxBeats at hb
  rcases hl : l with _ | ⟨c0, cr⟩
  · rw [hl] at hb; cases hb
  · rw [hl] at hb
    rcases List.mem_flatMap.mp hb with ⟨m, _, hbm⟩
    rcases List.mem_cons.mp hbm with hb1 | hb2
    · rw [hb1]; rfl
    · split at hb2
      · rcases List.mem_cons.mp hb2 with hb3 | hnil
        · rw [hb3]; rfl
        · cases hnil
      · cases hb2

/-- The outro section only produces outro-phase beats. -/
theorem outroBeats_phase (l : List Moment) : ∀ b ∈ l.map outroBeat, b.phase = "outro" := by
  intro b hb
  rcases List.mem_map.mp hb with ⟨m, _, hbm⟩
  rw [← hbm]
  rfl

/-- Unfolding equation for the climax section on a non-empty phase. -/
theorem climaxBeats_cons (c0 : Moment) (cr : List Moment) :
    climaxBeats (c0 :: cr) = (c0 :: cr).flatMap (fun m =>
      climaxMomentBeat (m = bestByScore c0 cr) m ::
        (if m = bestByScore c0 cr then [reactionBeat m] else [])) := rfl

/-- A non-empty climax phase yields at least one climax beat among the built
beats. -/
theorem buildBeats_has_climax (ph : Phases) (h : ph.climax ≠ []) :
    ∃ b ∈ buildBeats ph, b.phase = "climax" := by
  rcases hcl : ph.climax with _ | ⟨c0, cr⟩
  · exact absurd hcl h
  · refine ⟨climaxMomentBeat (c0 = bestByScore c0 cr) c0, ?_, rfl⟩
    rw [buildBeats, mem_sortBeatsByStart]
    refine List.mem_append.mpr (Or.inl ?_)
    refine List.mem_append.mpr (Or.inr ?_)
    rw [hcl, climaxBeats_cons]
    refine List.mem_flatMap.mpr ⟨c0, List.mem_cons_self c0 cr, ?_⟩
    exact List.mem_cons_self _ _

/-- A seed is below a `phaseEndFold`-style fold. -/
theorem le_foldl_max_stop :
    ∀ (l : List Beat) (d : ℚ), d ≤ l.foldl (fun mx b => max mx b.stop) d := by
  intro l
  induction l with
  | nil => intro d; exact le_refl d
  | cons b t ih =>
    intro d
    exact le_trans (le_max_left d b.stop) (ih (max d b.stop))

/-- The seed is below every `phaseEndFold`. -/
theorem le_phaseEndFold (phase : String) (seed : ℚ) (beats : List Beat) :
    seed ≤ phaseEndFold phase seed beats :=
  le_foldl_max_stop _ seed

/-- Claim C10: the structure timestamps of every built story arc are
monotone: `0 ≤ hookEnd ≤ risingEnd ≤ climaxEnd`, because each later boundary
is a maximum seeded with the previous one. -/
theorem C10_structure_monotone (moments : List Moment) (tmpl : StoryTemplateLite) :
    0 ≤ (buildStoryArc moments tmpl).timing.hookEnd
    ∧ (buildStoryArc moments tmpl).timing.hookEnd
        ≤ (buildStoryArc moments tmpl).timing.risingEnd
    ∧ (buildStoryArc moments tmpl).timing.risingEnd
        ≤ (buildStoryArc moments tmpl).timing.climaxEnd := by
  cases moments with
  | nil =>
    refine ⟨le_refl 0, le_refl 0, le_refl 0⟩
  | cons m rest =>
    rw [buildStoryArc]
    simp only [arcFromBeats]
    exact ⟨le_phaseEndFold _ _ _, le_phaseEndFold _ _ _, le_phaseEndFold _ _ _⟩

/-- Claim C2: for every non-empty moments list and template, the built story
arc has at least one climax-phase beat. -/
theorem C2_climax_nonempty (moments : List Moment) (tmpl : StoryTemplateLite)
    (h : moments ≠ []) :
    ∃ b ∈ (buildStoryArc moments tmpl).beats, b.phase = "climax" := by
  cases moments with
  | nil => exact absurd rfl h
  | cons m rest =>
    rw [buildStoryArc]
    simp only [arcFromBeats]
    cases hs : sortByTime (m :: rest) with
    | nil =>
      have := (sortByTime_perm (m :: rest)).length_eq
      rw [hs] at this
      cases this
    | cons s0 srest =>
      refine buildBeats_has_climax _ ?_
      rw [← hs]
      cases hs2 : sortByTime (m :: rest) with
      | nil => rw [hs2] at hs; cases hs
      | cons a b =>
        exact partition_climax_ne a b _ _

/-- Witness for claim C2 at a concrete one-moment input. -/
theorem C2_witness :
    momentsW ≠ [] ∧
    ∃ b ∈ (buildStoryArc momentsW comebackTmpl).beats, b.phase = "climax" :=
  ⟨by simp [momentsW], C2_climax_nonempty momentsW comebackTmpl (by simp [momentsW])⟩

-- ───────────────────────────────────────────────────────────────────────────
-- Emotion curve (claim C6)
-- ───────────────────────────────────────────────────────────────────────────

/-- Claim C6, amended: for every non-empty input the emotion curve is the
rounded per-phase average (peak: per-phase maximum), with each fallback value
used exactly when the computed value is `0` — i.e. when the phase has no
beats, and also when a non-empty phase's rounded average (or maximum) is `0`,
because the fallback is applied through JS `||`. -/
theorem C6_emotionCurve_amended (moments : List Moment) (tmpl : StoryTemplateLite)
    (h : moments ≠ []) :
    (buildStoryArc moments tmpl).emotionCurve
      = claimAmendedCurve (buildStoryArc moments tmpl).beats := by
  cases moments with
  | nil => exact absurd rfl h
  | cons m rest =>
    rw [buildStoryArc]
    simp only [arcFromBeats]
    have hcl : (partitionIntoPhases (sortByTime (m :: rest))
        (findClimaxCenter (sortByTime (m :: rest))) tmpl.fracs).climax ≠ [] := by
      cases hs : sortByTime (m :: rest) with
      | nil =>
        have := (sortByTime_perm (m :: rest)).length_eq
        rw [hs] at this
        cases this
      | cons a b =>
        exact partition_climax_ne a b _ _
    rcases buildBeats_has_climax _ hcl with ⟨b, hb, _⟩
    cases hbeats : buildBeats (partitionIntoPhases (sortByTime (m :: rest))
        (findClimaxCenter (sortByTime (m :: rest))) tmpl.fracs) with
    | nil =>
      rw [hbeats] at hb
      cases hb
    | cons b0 bs =>
      rfl

/-- The timestamp sort leaves the already-sorted `momentsC6` unchanged. -/
theorem sortC6 : sortByTime momentsC6 = momentsC6 := by
  simp +decide [sortByTime, momentsC6, mkMoment, List.insertionSort, List.orderedInsert]

/-- The climax center of `momentsC6` is `90`. -/
theorem centerC6 : findClimaxCenter momentsC6 = 90 := by
  simp +decide [findClimaxCenter, momentsC6, mkMoment, windowPairs, climaxWindowSize,
    List.range_succ]

/-- The phase partition of `momentsC6`. -/
theorem partC6 : partitionIntoPhases momentsC6 90 comebackFracs = phasesC6 := by
  simp +decide [partitionIntoPhases, momentsC6, phasesC6, comebackFracs, mkMoment, bestByScore,
    List.filter_cons]
  norm_num

/-- The beats built from the `momentsC6` partition. -/
theorem beatsC6_eq : buildBeats phasesC6 = beatsC6 := by
  simp +decide [buildBeats, phasesC6, beatsC6, hookBeats, risingBeats, climaxBeats, bestByScore,
    sortBeatsByStart, List.insertionSort, List.orderedInsert, mkMoment, hookMomentBeat,
    risingMomentBeat, climaxMomentBeat, reactionBeat, contextPadding]
  norm_num

/-- The full story arc `buildStoryArc` computes for `momentsC6`: note the
midpoint `50` produced by the `|| 50` fallback although the rising phase has
a beat (of intensity 0). -/
theorem arcC6 : buildStoryArc momentsC6 comebackTmpl
    = ⟨beatsC6, ⟨2, 42, 105, 18⟩, ⟨20, 50, 85, 40⟩⟩ := by
  have hcons : buildStoryArc momentsC6 comebackTmpl =
      arcFromBeats (buildBeats (partitionIntoPhases (sortByTime momentsC6)
        (findClimaxCenter (sortByTime momentsC6)) comebackTmpl.fracs)) := rfl
  have hf : comebackTmpl.fracs = comebackFracs := rfl
  rw [hcons, sortC6, centerC6, hf, partC6, beatsC6_eq]
  simp +decide [arcFromBeats, phaseEndFold, totalDur, calculateEmotionCurve, beatsC6,
    hookMomentBeat, risingMomentBeat, climaxMomentBeat, reactionBeat, mkMoment, contextPadding,
    jsAvg, jsOr, jsRound, List.filter_cons]
  norm_num

/-- Claim C6, counterexample: for `momentsC6` the rising phase has exactly
one beat, of intensity `0`; the claim as stated demands midpoint `0` (the
rounded average), but the code's `|| 50` fallback fires and the arc's
midpoint is `50`. -/
theorem C6_counterexample :
    (buildStoryArc momentsC6 comebackTmpl).emotionCurve
      ≠ claimEmotionCurve (buildStoryArc momentsC6 comebackTmpl).beats := by
  rw [arcC6]
  show EmotionCurve.mk 20 50 85 40 ≠ claimEmotionCurve beatsC6
  have h2 : claimEmotionCurve beatsC6 = ⟨20, 0, 85, 40⟩ := by
    simp +decide [claimEmotionCurve, beatsC6, hookMomentBeat, risingMomentBeat,
      climaxMomentBeat, reactionBeat, mkMoment, contextPadding, jsAvg, jsRound,
      List.filter_cons]
    norm_num
  rw [h2]
  simp [EmotionCurve.mk.injEq]

/-- Witness for the amended claim C6 at `momentsC6`. -/
theorem C6_witness :
    momentsC6 ≠ [] ∧
    (buildStoryArc momentsC6 comebackTmpl).emotionCurve
      = claimAmendedCurve (buildStoryArc momentsC6 comebackTmpl).beats :=
  ⟨by simp [momentsC6], C6_emotionCurve_amended momentsC6 comebackTmpl (by simp [momentsC6])⟩

-- ───────────────────────────────────────────────────────────────────────────
-- Synthesized hook teaser (claim C9)
-- ───────────────────────────────────────────────────────────────────────────

/-- When the hook phase is empty, the hook section is the single flash-forward
beat built from the first climax moment. -/
theorem hookBeats_of_empty (ph : Phases) (c0 : Moment) (cr : List Moment)
    (hhook : ph.hook = []) (hcl : ph.climax = c0 :: cr) :
    hookBeats ph = [synthHookBeat c0] := by
  unfold hookBeats
  rw [hhook, hcl]

/-- A beat list whose phase is uniformly different from `"hook"` contributes
nothing to the hook filter. -/
theorem filter_hook_nil (l : List Beat) (ph : String)
    (hall : ∀ b ∈ l, b.phase = ph) (hne : ph ≠ "hook") :
    l.filter (fun b => b.phase == "hook") = [] := by
  induction l with
  | nil => rfl
  | cons b t ih =>
    rw [List.filter_cons]
    have hb : (b.phase == "hook") = false := by
      rw [hall b (List.mem_cons_self b t)]
      exact beq_eq_false_iff_ne.mpr hne
    rw [hb]
    simp only [Bool.false_eq_true, if_false]
    exact ih (fun x hx => hall x (List.mem_cons_of_mem b hx))

/-- Claim C9, amended: whenever the phase partition leaves the hook phase
empty, the built arc has exactly one hook-phase beat — the flash-forward
"context" teaser (music cue "drop", pacing 0.5) built from the *first*
(chronologically earliest) climax-phase moment. -/
theorem C9_hookTeaser_amended (moments : List Moment) (tmpl : StoryTemplateLite)
    (c0 : Moment) (cr : List Moment) (h : moments ≠ [])
    (hhook : (partitionIntoPhases (sortByTime moments)
      (findClimaxCenter (sortByTime moments)) tmpl.fracs).hook = [])
    (hcl : (partitionIntoPhases (sortByTime moments)
      (findClimaxCenter (sortByTime moments)) tmpl.fracs).climax = c0 :: cr) :
    (buildStoryArc moments tmpl).beats.filter (fun b => b.phase == "hook")
      = [synthHookBeat c0] := by
  cases moments with
  | nil => exact absurd rfl h
  | cons m rest =>
    rw [buildStoryArc]
    simp only [arcFromBeats]
    rw [buildBeats]
    have hconcat : (hookBeats (partitionIntoPhases (sortByTime (m :: rest))
          (findClimaxCenter (sortByTime (m :: rest))) tmpl.fracs)
        ++ risingBeats (partitionIntoPhases (sortByTime (m :: rest))
          (findClimaxCenter (sortByTime (m :: rest))) tmpl.fracs).rising
        ++ climaxBeats (partitionIntoPhases (sortByTime (m :: rest))
          (findClimaxCenter (sortByTime (m :: rest))) tmpl.fracs).climax
        ++ ((partitionIntoPhases (sortByTime (m :: rest))
          (findClimaxCenter (sortByTime (m :: rest))) tmpl.fracs).outro.map outroBeat)).filter
            (fun b => b.phase == "hook") = [synthHookBeat c0] := by
      rw [List.filter_append, List.filter_append, List.filter_append]
      rw [hookBeats_of_empty _ c0 cr hhook hcl]
      rw [filter_hook_nil _ "rising" (risingBeats_phase _) (by decide)]
      rw [filter_hook_nil _ "climax" (climaxBeats_phase _) (by decide)]
      rw [filter_hook_nil _ "outro" (outroBeats_phase _) (by decide)]
      simp [synthHookBeat]
    refine List.perm_singleton.mp ?_
    refine List.Perm.trans ((sortBeatsByStart_perm _).filter (fun b => b.phase == "hook")) ?_
    rw [hconcat]

/-- The timestamp sort leaves the already-sorted `momentsC9` unchanged. -/
theorem sortC9 : sortByTime momentsC9 = momentsC9 := by
  simp +decide [sortByTime, momentsC9, mkMoment, List.insertionSort, List.orderedInsert]

/-- The climax center of `momentsC9` is `2`. -/
theorem centerC9 : findClimaxCenter momentsC9 = 2 := by
  simp +decide [findClimaxCenter, momentsC9, mkMoment, windowPairs, climaxWindowSize,
    List.range_succ]

/-- The phase partition of `momentsC9`: empty hook, two climax moments whose
first is not the top scorer. -/
theorem partC9 : partitionIntoPhases momentsC9 2 comebackFracs = phasesC9 := by
  simp +decide [partitionIntoPhases, momentsC9, phasesC9, comebackFracs, mkMoment, bestByScore,
    List.filter_cons]
  norm_num
  exact List.cons_ne_nil _ _

/-- The beats built from the `momentsC9` partition. -/
theorem beatsC9_eq : buildBeats phasesC9 = beatsC9 := by
  simp +decide [buildBeats, phasesC9, beatsC9, hookBeats, risingBeats, climaxBeats, bestByScore,
    sortBeatsByStart, List.insertionSort, List.orderedInsert, mkMoment, hookMomentBeat,
    synthHookBeat, risingMomentBeat, climaxMomentBeat, reactionBeat, outroBeat, contextPadding]
  norm_num

/-- The full story arc `buildStoryArc` computes for `momentsC9`. -/
theorem arcC9 : buildStoryArc momentsC9 comebackTmpl
    = ⟨beatsC9, ⟨1, 1, 7, 14⟩, ⟨90, 50, 99, 30⟩⟩ := by
  have hcons : buildStoryArc momentsC9 comebackTmpl =
      arcFromBeats (buildBeats (partitionIntoPhases (sortByTime momentsC9)
        (findClimaxCenter (sortByTime momentsC9)) comebackTmpl.fracs)) := rfl
  have hf : comebackTmpl.fracs = comebackFracs := rfl
  rw [hcons, sortC9, centerC9, hf, partC9, beatsC9_eq]
  simp +decide [arcFromBeats, phaseEndFold, totalDur, calculateEmotionCurve, beatsC9,
    synthHookBeat, climaxMomentBeat, reactionBeat, outroBeat, mkMoment, contextPadding,
    jsAvg, jsOr, jsRound, List.filter_cons]
  norm_num

/-- Claim C9, counterexample: for `momentsC9` the hook phase is empty and the
climax phase is `[(t=0, score 75), (t=2, score 99)]`.  The code builds the
flash-forward from `climax[0]` (t=0, window `[0,1]`), while the claim as
stated builds it from the highest-scoring climax moment (t=2, window
`[1,3]`). -/
theorem C9_counterexample :
    (partitionIntoPhases (sortByTime momentsC9)
      (findClimaxCenter (sortByTime momentsC9)) comebackTmpl.fracs).hook = []
    ∧ (buildStoryArc momentsC9 comebackTmpl).beats.filter (fun b => b.phase == "hook")
        ≠ claimC9HookBeats (partitionIntoPhases (sortByTime momentsC9)
            (findClimaxCenter (sortByTime momentsC9)) comebackTmpl.fracs) := by
  have hf : comebackTmpl.fracs = comebackFracs := rfl
  constructor
  · rw [sortC9, centerC9, hf, partC9]
    rfl
  · rw [sortC9, centerC9, hf, partC9, arcC9]
    have hL : beatsC9.filter (fun b => b.phase == "hook") = [synthHookBeat (mkMoment 0 75)] := by
      simp +decide [beatsC9, synthHookBeat, climaxMomentBeat, reactionBeat, outroBeat,
        mkMoment, contextPadding, List.filter_cons]
    have hR : claimC9HookBeats phasesC9 = [synthHookBeat (mkMoment 2 99)] := by
      simp +decide [claimC9HookBeats, phasesC9, bestByScore, mkMoment]
    show beatsC9.filter (fun b => b.phase == "hook") ≠ claimC9HookBeats phasesC9
    rw [hL, hR]
    simp +decide [synthHookBeat, mkMoment, Beat.mk.injEq]

/-- Witness for the amended claim C9 at `momentsC9`. -/
theorem C9_witness :
    momentsC9 ≠ []
    ∧ (partitionIntoPhases (sortByTime momentsC9)
        (findClimaxCenter (sortByTime momentsC9)) comebackTmpl.fracs).hook = []
    ∧ (partitionIntoPhases (sortByTime momentsC9)
        (findClimaxCenter (sortByTime momentsC9)) comebackTmpl.fracs).climax
          = mkMoment 0 75 :: [mkMoment 2 99]
    ∧ (buildStoryArc momentsC9 comebackTmpl).beats.filter (fun b => b.phase == "hook")
        = [synthHookBeat (mkMoment 0 75)] := by
  have hf : comebackTmpl.fracs = comebackFracs := rfl
  have hhook : (partitionIntoPhases (sortByTime momentsC9)
      (findClimaxCenter (sortByTime momentsC9)) comebackTmpl.fracs).hook = [] := by
    rw [sortC9, centerC9, hf, partC9]
    rfl
  have hcl : (partitionIntoPhases (sortByTime momentsC9)
      (findClimaxCenter (sortByTime momentsC9)) comebackTmpl.fracs).climax
        = mkMoment 0 75 :: [mkMoment 2 99] := by
    rw [sortC9, centerC9, hf, partC9]
    rfl
  exact ⟨by simp [momentsC9], hhook, hcl,
    C9_hookTeaser_amended momentsC9 comebackTmpl (mkMoment 0 75) [mkMoment 2 99]
      (by simp [momentsC9]) hhook hcl⟩

-- ───────────────────────────────────────────────────────────────────────────
-- Emotion-curve range invariant (claim C7)
-- ───────────────────────────────────────────────────────────────────────────

/-- The hook section's beat intensities are in `[0, 100]` when the hook and
climax scores are in `[0, 100]`. -/
theorem hookBeats_intensity (ph : Phases)
    (hh : ∀ m ∈ ph.hook, 0 ≤ m.score ∧ m.score ≤ 100) :
    ∀ b ∈ hookBeats ph, 0 ≤ b.intensity ∧ b.intensity ≤ 100 := by
  intro b hb
  unfold hookBeats at hb
  rcases hph : ph.hook with _ | ⟨m, ms⟩
  · rw [hph] at hb
    rcases hcl : ph.climax with _ | ⟨c0, cr⟩ <;> rw [hcl] at hb
    · cases hb
    · rcases List.mem_cons.mp hb with hsb | hnil
      · rw [hsb]
        exact ⟨by norm_num [synthHookBeat], by norm_num [synthHookBeat]⟩
      · cases hnil
  · rw [hph] at hb
    rcases List.mem_map.mp hb with ⟨m', hm', hbm⟩
    have hsc := hh m' (hph ▸ hm')
    rw [← hbm]
    unfold hookMomentBeat
    constructor
    · exact le_min (by norm_num) (by omega)
    · exact le_trans (min_le_left _ _) (by norm_num)

/-- Floor of `score × 0.6` stays in `[0, 100]` for scores in `[0, 100]`. -/
theorem floor_point_six_bounds (s : ℤ) (h0 : 0 ≤ s) (h1 : s ≤ 100) :
    0 ≤ ⌊(s : ℚ) * 0.6⌋ ∧ ⌊(s : ℚ) * 0.6⌋ ≤ 100 := by
  constructor
  · apply Int.le_floor.mpr
    push_cast
    positivity
  · have h2 : ⌊(s : ℚ) * 0.6⌋ ≤ ⌊(100 : ℚ)⌋ := by
      apply Int.floor_le_floor
      have hcast : (s : ℚ) ≤ 100 := by exact_mod_cast h1
      nlinarith
    simpa using h2

/-- The rising section's beat intensities are in `[0, 100]` when its scores
are. -/
theorem risingBeats_intensity :
    ∀ (l : List Moment), (∀ m ∈ l, 0 ≤ m.score ∧ m.score ≤ 100) →
      ∀ b ∈ risingBeats l, 0 ≤ b.intensity ∧ b.intensity ≤ 100 := by
  intro l
  induction l with
  | nil => intro _ b hb; cases hb
  | cons m t ih =>
    intro hl b hb
    have hm := hl m (List.mem_cons_self m t)
    cases t with
    | nil =>
      rcases List.mem_cons.mp hb with hb1 | hnil
      · rw [hb1]; exact hm
      · cases hnil
    | cons m2 t2 =>
      rcases List.mem_cons.mp hb with hb1 | hb2
      · rw [hb1]; exact hm
      · rcases List.mem_cons.mp hb2 with hb3 | hb4
        · rw [hb3]
          exact floor_point_six_bounds m.score hm.1 hm.2
        · exact ih (fun x hx => hl x (List.mem_cons_of_mem m hx)) b hb4

/-- The climax section's beat intensities are in `[0, 100]` when its scores
are. -/
theorem climaxBeats_intensity (l : List Moment)
    (hl : ∀ m ∈ l, 0 ≤ m.score ∧ m.score ≤ 100) :
    ∀ b ∈ climaxBeats l, 0 ≤ b.intensity ∧ b.intensity ≤ 100 := by
  intro b hb
  rcases hll : l with _ | ⟨c0, cr⟩
  · rw [hll] at hb; cases hb
  · rw [hll, climaxBeats_cons] at hb
    rcases List.mem_flatMap.mp hb with ⟨m, hm, hbm⟩
    have hsc := hl m (hll ▸ hm)
    rcases List.mem_cons.mp hbm with hb1 | hb2
    · rw [hb1]; exact hsc
    · split at hb2
      · rcases List.mem_cons.mp hb2 with hb3 | hnil
        · rw [hb3]
          exact ⟨by norm_num [reactionBeat], by norm_num [reactionBeat]⟩
        · cases hnil
      · cases hb2

/-- The outro section's beat intensities are in `[0, 100]` when its scores
are. -/
theorem outroBeats_intensity (l : List Moment)
    (hl : ∀ m ∈ l, 0 ≤ m.score ∧ m.score ≤ 100) :
    ∀ b ∈ l.map outroBeat, 0 ≤ b.intensity ∧ b.intensity ≤ 100 := by
  intro b hb
  rcases List.mem_map.mp hb with ⟨m, hm, hbm⟩
  have hsc := hl m hm
  rw [← hbm]
  unfold outroBeat
  constructor
  · exact le_trans (by norm_num) (le_max_left _ _)
  · exact max_le (by norm_num) (by omega)

/-- All built beat intensities are in `[0, 100]` when all phase scores are. -/
theorem buildBeats_intensity (ph : Phases)
    (hh : ∀ m ∈ ph.hook, 0 ≤ m.score ∧ m.score ≤ 100)
    (hr : ∀ m ∈ ph.rising, 0 ≤ m.score ∧ m.score ≤ 100)
    (hc : ∀ m ∈ ph.climax, 0 ≤ m.score ∧ m.score ≤ 100)
    (ho : ∀ m ∈ ph.outro, 0 ≤ m.score ∧ m.score ≤ 100) :
    ∀ b ∈ buildBeats ph, 0 ≤ b.intensity ∧ b.intensity ≤ 100 := by
  intro b hb
  rw [buildBeats, mem_sortBeatsByStart] at hb
  rcases List.mem_append.mp hb with h3 | hout
  · rcases List.mem_append.mp h3 with h2 | hclx
    · rcases List.mem_append.mp h2 with hhk | hrs
      · exact hookBeats_intensity ph hh b hhk
      · exact risingBeats_intensity ph.rising hr b hrs
    · exact climaxBeats_intensity ph.climax hc b hclx
  · exact outroBeats_intensity ph.outro ho b hout

/-- Bounds on the summing fold of the `avg` helper. -/
theorem foldl_add_bounds :
    ∀ (l : List ℤ) (a : ℤ), (∀ x ∈ l, 0 ≤ x ∧ x ≤ 100) →
      a ≤ l.foldl (fun s x => s + x) a
      ∧ l.foldl (fun s x => s + x) a ≤ a + 100 * l.length := by
  intro l
  induction l with
  | nil => intro a _; exact ⟨le_refl a, by simp⟩
  | cons x t ih =>
    intro a h
    have hx := h x (List.mem_cons_self x t)
    have ht := ih (a + x) (fun y hy => h y (List.mem_cons_of_mem x hy))
    constructor
    · exact le_trans (by omega) ht.1
    · refine le_trans ht.2 ?_
      simp only [List.length_cons]
      push_cast
      omega

/-- The rounded list average of `[0, 100]`-valued entries stays in
`[0, 100]`. -/
theorem jsAvg_bounds (l : List ℤ) (hne : l ≠ [])
    (hb : ∀ x ∈ l, 0 ≤ x ∧ x ≤ 100) :
    0 ≤ jsAvg l ∧ jsAvg l ≤ 100 := by
  cases l with
  | nil => exact absurd rfl hne
  | cons x t =>
    have hsum := foldl_add_bounds (x :: t) 0 hb
    have hlen : (0 : ℚ) < ((x :: t).length : ℚ) := by
      simp only [List.length_cons]
      push_cast
      positivity
    set S := (x :: t).foldl (fun s x => s + x) 0 with hS
    have hq0 : (0 : ℚ) ≤ (S : ℚ) / ((x :: t).length : ℚ) := by
      apply div_nonneg _ (le_of_lt hlen)
      exact_mod_cast hsum.1
    have hq1 : (S : ℚ) / ((x :: t).length : ℚ) ≤ 100 := by
      rw [div_le_iff₀ hlen]
      have : (S : ℚ) ≤ 100 * ((x :: t).length : ℚ) := by
        have h2 := hsum.2
        exact_mod_cast (by omega : S ≤ 100 * ((x :: t).length : ℤ))
      linarith
    constructor
    · show 0 ≤ jsRound ((S : ℚ) / ((x :: t).length : ℚ))
      apply Int.le_floor.mpr
      push_cast
      linarith
    · show jsRound ((S : ℚ) / ((x :: t).length : ℚ)) ≤ 100
      unfold jsRound
      calc ⌊(S : ℚ) / ((x :: t).length : ℚ) + 1/2⌋ ≤ ⌊(100 : ℚ) + 1/2⌋ := by
            apply Int.floor_le_floor
            linarith
      _ = 100 := by norm_num

/-- A `foldl max` over `[· ≤ 100]` entries with a seed `≤ 100` stays
`≤ 100`. -/
theorem foldl_max_le_of_le :
    ∀ (l : List ℤ) (a : ℤ), a ≤ 100 → (∀ x ∈ l, x ≤ 100) → l.foldl max a ≤ 100 := by
  intro l
  induction l with
  | nil => intro a ha _; exact ha
  | cons x t ih =>
    intro a ha h
    exact ih (max a x) (max_le ha (h x (List.mem_cons_self x t)))
      (fun y hy => h y (List.mem_cons_of_mem x hy))

/-- The emotion curve stays in `[0, 100]` when every beat intensity does. -/
theorem emotionCurve_bounds (beats : List Beat)
    (hb : ∀ b ∈ beats, 0 ≤ b.intensity ∧ b.intensity ≤ 100) :
    (0 ≤ (calculateEmotionCurve beats).opening ∧ (calculateEmotionCurve beats).opening ≤ 100)
    ∧ (0 ≤ (calculateEmotionCurve beats).midpoint ∧ (calculateEmotionCurve beats).midpoint ≤ 100)
    ∧ (0 ≤ (calculateEmotionCurve beats).peak ∧ (calculateEmotionCurve beats).peak ≤ 100)
    ∧ (0 ≤ (calculateEmotionCurve beats).closing ∧ (calculateEmotionCurve beats).closing ≤ 100) := by
  have hmem : ∀ (ph : String) (x : ℤ),
      x ∈ (beats.filter (fun b => b.phase == ph)).map Beat.intensity →
      0 ≤ x ∧ x ≤ 100 := by
    intro ph x hx
    rcases List.mem_map.mp hx with ⟨b, hbf, hbx⟩
    rw [← hbx]
    exact hb b (List.mem_filter.mp hbf).1
  have havg : ∀ (ph : String) (fb : ℤ), 0 ≤ fb → fb ≤ 100 →
      0 ≤ jsOr (jsAvg ((beats.filter (fun b => b.phase == ph)).map Beat.intensity)) fb
      ∧ jsOr (jsAvg ((beats.filter (fun b => b.phase == ph)).map Beat.intensity)) fb ≤ 100 := by
    intro ph fb hfb0 hfb1
    unfold jsOr
    by_cases hz : jsAvg ((beats.filter (fun b => b.phase == ph)).map Beat.intensity) = 0
    · rw [if_pos hz]
      exact ⟨hfb0, hfb1⟩
    · rw [if_neg hz]
      rcases hil : (beats.filter (fun b => b.phase == ph)).map Beat.intensity with _ | ⟨i0, irest⟩
      · rw [hil] at hz
        exact absurd rfl hz
      · rw [hil]
        refine jsAvg_bounds (i0 :: irest) (List.cons_ne_nil i0 irest) ?_
        intro x hx
        refine hmem ph x ?_
        rw [hil]
        exact hx
  have hpeak : ∀ (fb : ℤ), 0 ≤ fb → fb ≤ 100 →
      0 ≤ jsOr (((beats.filter (fun b => b.phase == "climax")).map Beat.intensity).foldl max 0) fb
      ∧ jsOr (((beats.filter (fun b => b.phase == "climax")).map Beat.intensity).foldl max 0) fb ≤ 100 := by
    intro fb hfb0 hfb1
    unfold jsOr
    split
    · exact ⟨hfb0, hfb1⟩
    · refine ⟨le_foldl_max _ 0, ?_⟩
      exact foldl_max_le_of_le _ 0 (by norm_num)
        (fun x hx => (hmem "climax" x hx).2)
  cases beats with
  | nil =>
    exact ⟨⟨by decide, by decide⟩, ⟨by decide, by decide⟩,
      ⟨by decide, by decide⟩, ⟨by decide, by decide⟩⟩
  | cons b0 bs =>
    exact ⟨havg "hook" 60 (by norm_num) (by norm_num),
      havg "rising" 50 (by norm_num) (by norm_num),
      hpeak 95 (by norm_num) (by norm_num),
      havg "outro" 40 (by norm_num) (by norm_num)⟩

/-- Claim C7: for every moments list whose scores lie in `[0, 100]`, all four
emotion-curve values of the built story arc lie in `[0, 100]`. -/
theorem C7_emotionCurve_range (moments : List Moment) (tmpl : StoryTemplateLite)
    (hs : ∀ m ∈ moments, 0 ≤ m.score ∧ m.score ≤ 100) :
    (0 ≤ (buildStoryArc moments tmpl).emotionCurve.opening
      ∧ (buildStoryArc moments tmpl).emotionCurve.opening ≤ 100)
    ∧ (0 ≤ (buildStoryArc moments tmpl).emotionCurve.midpoint
      ∧ (buildStoryArc moments tmpl).emotionCurve.midpoint ≤ 100)
    ∧ (0 ≤ (buildStoryArc moments tmpl).emotionCurve.peak
      ∧ (buildStoryArc moments tmpl).emotionCurve.peak ≤ 100)
    ∧ (0 ≤ (buildStoryArc moments tmpl).emotionCurve.closing
      ∧ (buildStoryArc moments tmpl).emotionCurve.closing ≤ 100) := by
  cases moments with
  | nil =>
    exact ⟨⟨le_refl 0, by show (0:ℤ) ≤ 100; norm_num⟩,
      ⟨le_refl 0, by show (0:ℤ) ≤ 100; norm_num⟩,
      ⟨le_refl 0, by show (0:ℤ) ≤ 100; norm_num⟩,
      ⟨le_refl 0, by show (0:ℤ) ≤ 100; norm_num⟩⟩
  | cons m rest =>
    rw [buildStoryArc]
    simp only [arcFromBeats]
    cases hsorted : sortByTime (m :: rest) with
    | nil =>
      have := (sortByTime_perm (m :: rest)).length_eq
      rw [hsorted] at this
      cases this
    | cons a arest =>
      have hssc : ∀ m' ∈ (a :: arest), 0 ≤ m'.score ∧ m'.score ≤ 100 := by
        intro m' hm'
        refine hs m' ?_
        rw [← mem_sortByTime (l := m :: rest), hsorted]
        exact hm'
      have hpm := partition_mem a arest
        (findClimaxCenter (a :: arest)) tmpl.fracs
      refine emotionCurve_bounds _ (buildBeats_intensity _ ?_ ?_ ?_ ?_)
      · exact fun m' hm' => hssc m' (hpm.1 m' hm')
      · exact fun m' hm' => hssc m' (hpm.2.1 m' hm')
      · exact fun m' hm' => hssc m' (hpm.2.2.1 m' hm')
      · exact fun m' hm' => hssc m' (hpm.2.2.2 m' hm')

/-- Witness for claim C7 at `momentsC6`. -/
theorem C7_witness :
    (∀ m ∈ momentsC6, 0 ≤ m.score ∧ m.score ≤ 100)
    ∧ ((0 ≤ (buildStoryArc momentsC6 comebackTmpl).emotionCurve.opening
      ∧ (buildStoryArc momentsC6 comebackTmpl).emotionCurve.opening ≤ 100)
    ∧ (0 ≤ (buildStoryArc momentsC6 comebackTmpl).emotionCurve.midpoint
      ∧ (buildStoryArc momentsC6 comebackTmpl).emotionCurve.midpoint ≤ 100)
    ∧ (0 ≤ (buildStoryArc momentsC6 comebackTmpl).emotionCurve.peak
      ∧ (buildStoryArc momentsC6 comebackTmpl).emotionCurve.peak ≤ 100)
    ∧ (0 ≤ (buildStoryArc momentsC6 comebackTmpl).emotionCurve.closing
      ∧ (buildStoryArc momentsC6 comebackTmpl).emotionCurve.closing ≤ 100)) :=
  ⟨by intro m hm; fin_cases hm <;> simp [mkMoment],
   C7_emotionCurve_range momentsC6 comebackTmpl
     (by intro m hm; fin_cases hm <;> simp [mkMoment])⟩

end Kairo
